import Mathlib

/-!
# muxctl — verification of the identity/handle orchestration engine

Shallow embedding of the core state-manipulating code of the muxctl
repository:

* `Muxctl.Manager` — the tmux layout manager (`pkg/tmux`-style `Manager` in
  the source): registry maps `resourcePanes` / `aiPanes`, the active-identity
  markers, the bottom-slot pane, and the operations
  `AttachResourceTerminal`, `AttachAIChat`, `CloseResourcePane`,
  `cleanupDeadPanes` (the reconciler), `ShowAIChooser`'s state update and
  `Setup`.
* `Muxctl.WindowPool` — the LRU-bounded diagnostic window pool
  (`pkg/pool`, `container/list` variant) with `GetOrCreate`, `evictLRU`,
  `touch`.
* `Muxctl.CappedWindowPool` — the second (capped, non-evicting) `WindowPool`
  variant from the source, which delegates pane creation to the manager.

Modelling conventions (stated once here):

* tmux pane/window handles are opaque tokens never parsed by the code; they
  are modelled as naturals.  The tmux server assigns fresh handles; this is
  modelled by a counter `next` threaded through the state, each created
  object consuming counter values (this is exactly the "gateway returns a
  fresh handle for each created object" assumption of the spec).
* every tmux query issued by an operation (`list-panes -a`,
  `list-panes -t <window>`, success of `kill-pane`) is an observation of the
  external server; one `Env` record per operation carries the observed
  values.  Creation commands (`new-window`, `split-window`) are modelled as
  succeeding, returning fresh handles.
* Go maps are modelled as association lists; Go `delete` / map iteration is
  modelled order-independently (reachable states have no duplicate keys).
* Go methods mutate the receiver in place and additionally return an error;
  mutations performed before an early `return err` persist.  Operations are
  therefore modelled as returning the new state *paired* with an optional
  error, never discarding the state on error.
-/

namespace Muxctl

/-- Opaque tmux pane/window handle (a `%N` / `@N` token in the source). -/
abbrev Handle := Nat

/-- One observation of the external tmux server, as consumed by a single
manager operation: the `list-panes` enumerations it issues and whether its
`kill-pane` command succeeds. -/
structure Env where
  /-- output of `list-panes -a` (all live panes, used by `cleanupDeadPanes`) -/
  allPanes : List Handle
  /-- output of `list-panes -t mainWindow` -/
  mainPanes : List Handle
  /-- output of `list-panes -t stashWindow` -/
  stashPanes : List Handle
  /-- whether `kill-pane` succeeds -/
  killOk : Bool
  deriving Repr, DecidableEq

/-- Errors returned by manager operations (`fmt.Errorf` sites in the source). -/
inductive MErr
  /-- "stash window has no panes" -/
  | stashEmpty
  /-- "expected 2 panes in main window, found %d" — the structural
  precondition failure -/
  | paneCount (n : Nat)
  /-- "resource %s has no pane" -/
  | notFound (id : String)
  /-- "kill ... pane" failed -/
  | killFailed
  deriving Repr, DecidableEq

/-- The tmux layout manager state (`Manager` struct in the source).
`mainWindow`, `userShell` and the two stash-window handles carry no claim
content beyond identity; the fields that do are kept with their source
names. -/
structure Manager where
  /-- TUI pane ID (top, the fixed control pane) -/
  tuiPane : Handle
  /-- currently attached bottom pane ID (the visible slot) -/
  bottomPane : Handle
  /-- stash window ID for resources -/
  stashWindow : Handle
  /-- stash window ID for AI chats -/
  aiStashWindow : Handle
  /-- resourceID → pane ID -/
  resourcePanes : List (String × Handle)
  /-- aiChatID → pane ID -/
  aiPanes : List (String × Handle)
  /-- currently active resource ID ("" = none) -/
  activeResource : String
  /-- currently active AI chat ID ("" = none) -/
  activeAIChat : String
  /-- list of pane IDs in the stash window -/
  stashedPanes : List Handle
  /-- counter for AI chat numbering -/
  aiCounter : Nat
  /-- fresh-handle counter of the tmux server (gateway model) -/
  next : Handle
  deriving Repr, DecidableEq

/-- Go map lookup `m[k]` on an association list (first match). -/
def lookupId (k : String) : List (String × Handle) → Option Handle
  | [] => none
  | (k', v) :: rest => if k' = k then some v else lookupId k rest

/-- Go map `delete(m, k)`. -/
def removeId (k : String) (l : List (String × Handle)) : List (String × Handle) :=
  l.filter (fun e => e.1 ≠ k)

namespace Manager

/-- `cleanupDeadPanes`: drop registry bindings whose pane is not in the live
enumeration (`list-panes -a`), clearing the active AI marker when its binding
is dropped (the source clears only the AI marker in this loop, not the
resource marker), then repair the slot if the bottom pane itself is dead:
with one remaining main-window pane recreate a fresh placeholder and go
idle, with two adopt the non-TUI pane. -/
def cleanupDeadPanes (env : Env) (m : Manager) : Manager :=
  let live := env.allPanes
  let deadAI := m.aiPanes.filter (fun e => ¬ live.contains e.2)
  let m2 : Manager :=
    { m with
      resourcePanes := m.resourcePanes.filter (fun e => live.contains e.2)
      aiPanes := m.aiPanes.filter (fun e => live.contains e.2)
      activeAIChat :=
        if deadAI.any (fun e => e.1 == m.activeAIChat) then "" else m.activeAIChat }
  if live.contains m.bottomPane then m2
  else if env.mainPanes.length = 1 then
    -- only TUI pane left: recreate the default bottom pane (split-window)
    { m2 with bottomPane := m2.next, next := m2.next + 1,
              activeResource := "", activeAIChat := "" }
  else if env.mainPanes.length = 2 then
    -- two panes exist: adopt whichever is not the TUI pane
    match env.mainPanes.find? (fun p => p ≠ m.tuiPane) with
    | some p => { m2 with bottomPane := p }
    | none => m2
  else m2

/-- `AttachResourceTerminal`: get or create the resource pane (a fresh
hidden window; `new-window` consumes one handle for the window and one for
its pane), check the two-pane structural precondition on the main window,
swap the bottom pane with the resource pane (the swap exchanges positions,
so slot tracking records the resource pane as the new bottom pane), set the
active-resource marker, clear the AI marker, refresh stash tracking, and
update the status bar (which runs `cleanupDeadPanes`). -/
def AttachResourceTerminal (env : Env) (resourceID : String) (m : Manager) :
    Manager × Option MErr :=
  let got : (Manager × Handle) ⊕ MErr :=
    match lookupId resourceID m.resourcePanes with
    | some pane => .inl (m, pane)
    | none =>
      if env.stashPanes.length = 0 then .inr .stashEmpty
      else
        -- new-window (handle m.next) plus its pane (handle m.next + 1)
        let newPane : Handle := m.next + 1
        .inl ({ m with
                  resourcePanes := (resourceID, newPane) :: m.resourcePanes
                  next := m.next + 2 }, newPane)
  match got with
  | .inr e => (m, some e)
  | .inl (m1, resourcePane) =>
    if env.mainPanes.length ≠ 2 then (m1, some (.paneCount env.mainPanes.length))
    else
      let m2 : Manager :=
        { m1 with bottomPane := resourcePane
                  activeResource := resourceID
                  activeAIChat := ""
                  stashedPanes := env.stashPanes }
      (cleanupDeadPanes env m2, none)

/-- `"ai-" + i`: the identity string of AI chat number `i`
(`fmt.Sprintf("ai-%d", i)`). -/
def aiId (n : Nat) : String := "ai-" ++ Nat.repr n

/-- The `for i := 1; ; i++` search of `AttachAIChat` for the first unused
AI chat id.  The Go loop is unbounded; fuel `keys.length + 1` is always
sufficient (proved below), making the model total. -/
def findFreeAI (keys : List String) : Nat → Nat → Nat
  | 0, i => i
  | fuel + 1, i => if keys.contains (aiId i) then findFreeAI keys fuel (i + 1) else i

/-- The AI chat number allocated by `AttachAIChat` against the current
`aiPanes` map. -/
def nextAINum (m : Manager) : Nat :=
  findFreeAI (m.aiPanes.map Prod.fst) (m.aiPanes.length + 1) 1

/-- `AttachAIChat`: allocate the lowest free `ai-N` id, bump `aiCounter` to
the max (`fmt.Sscanf` recovers `N` from the id it just formatted), create the
chat's hidden window, register the binding, then check the two-pane
precondition, swap, set the AI marker, clear the resource marker, and update
the status bar (running `cleanupDeadPanes`).  Note the binding is registered
*before* the precondition check in the source. -/
def AttachAIChat (env : Env) (m : Manager) : Manager × Option MErr :=
  let aiNum := nextAINum m
  let aiChatID := aiId aiNum
  let counter' := if aiNum > m.aiCounter then aiNum else m.aiCounter
  -- new-window (handle m.next) plus its pane (handle m.next + 1)
  let newPane : Handle := m.next + 1
  let m1 : Manager :=
    { m with aiPanes := (aiChatID, newPane) :: m.aiPanes
             aiCounter := counter'
             next := m.next + 2 }
  if env.mainPanes.length ≠ 2 then (m1, some (.paneCount env.mainPanes.length))
  else
    let m2 : Manager :=
      { m1 with bottomPane := newPane
                activeAIChat := aiChatID
                activeResource := ""
                stashedPanes := env.stashPanes }
    (cleanupDeadPanes env m2, none)

/-- `CloseResourcePane`: kill the pane of a tracked resource.  If it is the
active one, kill the bottom pane and split a fresh placeholder (one fresh
handle), clearing the active-resource marker; otherwise kill the stashed
pane.  Either way remove the binding, refresh stash tracking and update the
status bar (running `cleanupDeadPanes`). -/
def CloseResourcePane (env : Env) (resourceID : String) (m : Manager) :
    Manager × Option MErr :=
  match lookupId resourceID m.resourcePanes with
  | none => (m, some (.notFound resourceID))
  | some _paneID =>
    if resourceID = m.activeResource then
      if env.killOk then
        let m1 : Manager :=
          { m with bottomPane := m.next, next := m.next + 1, activeResource := "" }
        let m2 : Manager :=
          { m1 with resourcePanes := removeId resourceID m1.resourcePanes
                    stashedPanes := env.stashPanes }
        (cleanupDeadPanes env m2, none)
      else (m, some .killFailed)
    else
      if env.killOk then
        let m2 : Manager :=
          { m with resourcePanes := removeId resourceID m.resourcePanes
                   stashedPanes := env.stashPanes }
        (cleanupDeadPanes env m2, none)
      else (m, some .killFailed)

/-- A selection reported by the `ShowAIChooser` fzf popup. -/
inductive ChooserSel
  | ai (id : String)
  | res (id : String)
  deriving Repr, DecidableEq

/-- The state update `ShowAIChooser` performs after the popup reports a
selection: set the chosen category's active marker and clear the other,
re-derive the bottom pane as the non-TUI main-window pane, refresh stash
tracking and update the status bar (running `cleanupDeadPanes`). -/
def applyChooserSelection (env : Env) (sel : ChooserSel) (m : Manager) : Manager :=
  let m1 : Manager :=
    match sel with
    | .ai id => { m with activeAIChat := id, activeResource := "" }
    | .res id => { m with activeResource := id, activeAIChat := "" }
  let m2 : Manager :=
    if 2 ≤ env.mainPanes.length then
      match env.mainPanes.find? (fun p => p ≠ m.tuiPane) with
      | some p => { m1 with bottomPane := p }
      | none => m1
    else m1
  cleanupDeadPanes env { m2 with stashedPanes := env.stashPanes }

/-- `NewManager`: empty registries, idle markers, zero counter; the TUI pane
handle is read from tmux.  The fresh-handle counter starts above it. -/
def new (tuiPane : Handle) : Manager :=
  { tuiPane := tuiPane, bottomPane := 0, stashWindow := 0, aiStashWindow := 0,
    resourcePanes := [], aiPanes := [], activeResource := "", activeAIChat := "",
    stashedPanes := [], aiCounter := 0, next := tuiPane + 1 }

/-- `Setup`: create (one main-window pane) or adopt (two panes) the bottom
pane, fail on any other count, create the two stash windows, and update the
status bar (running `cleanupDeadPanes`). -/
def setup (env : Env) (m : Manager) : Manager × Option MErr :=
  let withBottom : Option Manager :=
    if env.mainPanes.length = 1 then
      some { m with bottomPane := m.next, next := m.next + 1 }
    else if env.mainPanes.length = 2 then
      some (match env.mainPanes.find? (fun p => p ≠ m.tuiPane) with
            | some p => { m with bottomPane := p }
            | none => m)
    else none
  match withBottom with
  | none => (m, some (.paneCount env.mainPanes.length))
  | some m1 =>
    let m2 : Manager :=
      { m1 with stashWindow := m1.next, aiStashWindow := m1.next + 1,
                next := m1.next + 2 }
    (cleanupDeadPanes env m2, none)

end Manager

/-- One public manager operation together with the server observation it
runs against. -/
inductive MOp
  | attachRes (env : Env) (id : String)
  | attachAI (env : Env)
  | closeRes (env : Env) (id : String)
  | chooser (env : Env) (sel : Manager.ChooserSel)
  | reconcile (env : Env)
  deriving Repr

/-- Apply one operation (keeping the post-state whether or not the call
reported an error, as the Go pointer-receiver methods do). -/
def stepM (m : Manager) : MOp → Manager
  | .attachRes env id => (Manager.AttachResourceTerminal env id m).1
  | .attachAI env => (Manager.AttachAIChat env m).1
  | .closeRes env id => (Manager.CloseResourcePane env id m).1
  | .chooser env sel => Manager.applyChooserSelection env sel m
  | .reconcile env => Manager.cleanupDeadPanes env m

/-- Run a sequence of public operations. -/
def runM (m : Manager) : List MOp → Manager
  | [] => m
  | op :: ops => runM (stepM m op) ops

/-! ## The LRU window pool (`pkg/pool`, `container/list` variant) -/

/-- One window as reported by `ctrl.ListWindows()`. -/
structure WinInfo where
  name : String
  active : Bool
  deriving Repr, DecidableEq

/-- Gateway observation consumed by one pool operation: the `ListWindows`
enumeration (`none` models the call failing), and the success of
`CloseWindow`, `SwitchToWindow` and the caller-supplied `setupFunc`. -/
structure PoolEnv where
  listWindows : Option (List WinInfo)
  closeOk : Bool
  switchOk : Bool
  setupOk : Bool
  deriving Repr, DecidableEq

/-- Pool operation errors (`fmt.Errorf` sites in the source). -/
inductive PErr
  /-- "no windows to evict" -/
  | noWindows
  /-- "cannot evict only window (it's active)" -/
  | onlyActive
  /-- "failed to close window" -/
  | closeFailed
  /-- "failed to switch to window" -/
  | switchFailed
  /-- "setup failed" -/
  | setupFailed
  deriving Repr, DecidableEq

/-- The LRU `WindowPool` state.  The source keeps a `name → *WindowEntry`
map plus a doubly-linked recency list holding the same entries; since both
always hold exactly the pool's entries, they are modelled as the single
association list `entries`, ordered by recency (head = most recent, last =
least recent).  `closed` is a ghost log of the names passed to
`ctrl.CloseWindow` on completed operations. -/
structure WindowPool where
  maxWindows : Nat
  entries : List (String × Nat)
  /-- namePrefix in the source -/
  namePref : String
  /-- fresh window-id counter of the controller (gateway model) -/
  nextId : Nat
  closed : List String
  deriving Repr, DecidableEq

namespace WindowPool

/-- The active-window skip scan of `evictLRU`: walk the `ListWindows`
result; whenever the listed window is active and names the current eviction
candidate, move the candidate one step towards the recently-used end
(`lruElem.Prev()`), unless the list has a single entry, in which case fail.
`idx` is the candidate's position in `entries` (last = least recent). -/
def evictScan (entries : List (String × Nat)) (ws : List WinInfo) (idx : Nat) :
    Except PErr Nat :=
  match ws with
  | [] => .ok idx
  | w :: rest =>
    match entries.get? idx with
    | none => .ok idx
    | some e =>
      if w.name = e.1 ∧ w.active = true then
        if 1 < entries.length then evictScan entries rest (idx - 1)
        else .error .onlyActive
      else evictScan entries rest idx

/-- `evictLRU`: starting from the least-recently-used entry, skip the
currently active window (see `evictScan`; skipped entirely when
`ListWindows` fails), close the chosen window and drop it from tracking.
On a failed close nothing is dropped. -/
def evictLRU (env : PoolEnv) (p : WindowPool) : Except PErr WindowPool :=
  if p.entries.length = 0 then .error .noWindows
  else
    let start := p.entries.length - 1
    let scanned : Except PErr Nat :=
      match env.listWindows with
      | some ws => evictScan p.entries ws start
      | none => .ok start
    match scanned with
    | .error e => .error e
    | .ok idx =>
      match p.entries.get? idx with
      | none => .error .noWindows
      | some e =>
        if env.closeOk then
          .ok { p with entries := p.entries.eraseIdx idx, closed := e.1 :: p.closed }
        else .error .closeFailed

/-- `touch`: move an entry to the most-recently-used end (its metadata
update is non-fatal and carries no tracked state). -/
def touch (fullName : String) (p : WindowPool) : WindowPool :=
  match p.entries.find? (fun e => e.1 == fullName) with
  | some e => { p with entries := e :: p.entries.eraseP (fun e' => e'.1 == fullName) }
  | none => p

/-- `GetOrCreate` (LRU variant): an existing entry is touched and switched
to; otherwise, at capacity, `evictLRU` runs first (its error aborting the
call), then the window is created (fresh id), `setupFunc` runs — on its
failure the just-created window is closed and the error propagated with no
entry added — and finally the entry is tracked and switched to. -/
def GetOrCreate (env : PoolEnv) (name : String) (p : WindowPool) :
    Except PErr Nat × WindowPool :=
  let fullName := p.namePref ++ name
  match p.entries.find? (fun e => e.1 == fullName) with
  | some e =>
    let p1 := touch fullName p
    if env.switchOk then (.ok e.2, p1) else (.error .switchFailed, p1)
  | none =>
    let afterEvict : Except PErr WindowPool :=
      if 0 < p.maxWindows ∧ p.maxWindows ≤ p.entries.length then evictLRU env p
      else .ok p
    match afterEvict with
    | .error e => (.error e, p)
    | .ok p1 =>
      let windowID := p1.nextId
      let p2 : WindowPool := { p1 with nextId := p1.nextId + 1 }
      if env.setupOk = false then
        (.error .setupFailed, { p2 with closed := fullName :: p2.closed })
      else
        let p3 : WindowPool := { p2 with entries := (fullName, windowID) :: p2.entries }
        if env.switchOk then (.ok windowID, p3) else (.error .switchFailed, p3)

/-- `NewWindowPool`. -/
def new (maxWindows : Nat) (pref : String) : WindowPool :=
  { maxWindows := maxWindows, entries := [], namePref := pref, nextId := 0,
    closed := [] }

/-- Run a sequence of `GetOrCreate` calls (name and observation per call). -/
def runPool (p : WindowPool) : List (String × PoolEnv) → WindowPool
  | [] => p
  | (name, env) :: ops => runPool (GetOrCreate env name p).2 ops

end WindowPool

/-! ## The capped window pool (second `pkg/pool` variant, delegating to the
tmux manager) -/

/-- The capped `WindowPool` variant: `id → pane ID` map, hard limit, no
eviction; pane creation delegates to `Manager.AttachResourceTerminal`. -/
structure CappedWindowPool where
  manager : Manager
  maxWindows : Nat
  /-- prefix in the source -/
  pref : String
  windows : List (String × Handle)
  deriving Repr, DecidableEq

namespace CappedWindowPool

/-- `GetOrCreate` (capped variant): return an existing pane; refuse at the
limit; otherwise create via `AttachResourceTerminal`, record the new bottom
pane, and run the optional setup function — whose failure is propagated
*after* the entry was recorded (the source neither removes the entry nor
destroys the pane in that branch). -/
def GetOrCreate (env : Env) (id : String) (setupOk : Bool) (p : CappedWindowPool) :
    Except PErr Handle × CappedWindowPool :=
  match lookupId id p.windows with
  | some paneID => (.ok paneID, p)
  | none =>
    if 0 < p.maxWindows ∧ p.maxWindows ≤ p.windows.length then
      (.error .noWindows, p)
    else
      let resourceID := p.pref ++ id
      match Manager.AttachResourceTerminal env resourceID p.manager with
      | (m', some _) => (.error .switchFailed, { p with manager := m' })
      | (m', none) =>
        let paneID := m'.bottomPane
        let p1 : CappedWindowPool :=
          { p with manager := m', windows := (id, paneID) :: p.windows }
        if setupOk then (.ok paneID, p1) else (.error .setupFailed, p1)

/-- Run a sequence of capped `GetOrCreate` calls. -/
def runCapped (p : CappedWindowPool) : List (String × Env × Bool) → CappedWindowPool
  | [] => p
  | (id, env, s) :: ops => runCapped (GetOrCreate env id s p).2 ops

end CappedWindowPool

/-! ## Derived notions used by the stated properties -/

/-- All physical handles bound in the registry (resource and AI maps
together). -/
def Manager.handles (m : Manager) : List Handle :=
  (m.resourcePanes ++ m.aiPanes).map Prod.snd

/-- At most one of the two active-identity markers is non-empty. -/
abbrev mutexInv (m : Manager) : Prop :=
  m.activeResource = "" ∨ m.activeAIChat = ""

/-- An association list binds each key at most once (true of every
reachable registry/pool state). -/
abbrev keysNodup {β : Type} (l : List (String × β)) : Prop :=
  (l.map Prod.fst).Nodup

/-- The fresh-handle bookkeeping invariant: every bound handle was issued
by the counter, and no handle is bound twice. -/
def handleInv (m : Manager) : Prop :=
  (∀ h ∈ m.handles, h < m.next) ∧ m.handles.Nodup

/-- At most one window in a `ListWindows` result is marked active (tmux has
a single active window per session). -/
abbrev uniqueActive (ws : List WinInfo) : Prop :=
  (ws.filter (fun w => w.active)).length ≤ 1

/-- `nm` names the window currently marked active. -/
abbrev activeIn (ws : List WinInfo) (nm : String) : Prop :=
  ∃ w ∈ ws, w.name = nm ∧ w.active = true

/-- Decimal value of a digit character. -/
def digitVal (c : Char) : Nat := c.toNat - '0'.toNat

/-- Decimal value of a digit string (used to invert `Nat.repr`). -/
def decVal (l : List Char) : Nat := l.foldl (fun a c => a * 10 + digitVal c) 0

/-! ## Concrete instances (inputs for witnesses and counterexamples) -/

/-- A freshly-set-up manager: TUI pane 0, bottom pane 1, stash windows 2/3. -/
def mEx : Manager :=
  { tuiPane := 0, bottomPane := 1, stashWindow := 2, aiStashWindow := 3,
    resourcePanes := [], aiPanes := [], activeResource := "", activeAIChat := "",
    stashedPanes := [], aiCounter := 0, next := 4 }

/-- Healthy observation: two main panes, live set covering the panes the
next creation will produce (5, 6). -/
def envEx2 : Env :=
  { allPanes := [0, 1, 5, 6], mainPanes := [0, 1], stashPanes := [7], killOk := true }

/-- Anomalous observation: three panes in the main window. -/
def envEx3 : Env :=
  { allPanes := [0, 1], mainPanes := [0, 1, 9], stashPanes := [7], killOk := true }

/-- Registry holding resource "left" on pane 2, which is active, while the
live set `[0, 1]` no longer contains pane 2. -/
def mC4ex : Manager :=
  { tuiPane := 0, bottomPane := 1, stashWindow := 8, aiStashWindow := 9,
    resourcePanes := [("left", 2)], aiPanes := [], activeResource := "left",
    activeAIChat := "", stashedPanes := [], aiCounter := 0, next := 10 }

/-- Live set for the `mC4ex` scenario: pane 2 was killed externally. -/
def envC4ex : Env :=
  { allPanes := [0, 1], mainPanes := [0, 1], stashPanes := [], killOk := true }

/-- Dead-slot state: the recorded bottom pane 9 is gone while the main
window still shows the two panes [0, 1]. -/
def mC7ex : Manager :=
  { tuiPane := 0, bottomPane := 9, stashWindow := 8, aiStashWindow := 9,
    resourcePanes := [], aiPanes := [], activeResource := "r1",
    activeAIChat := "", stashedPanes := [], aiCounter := 0, next := 10 }

/-- Dead-slot state with only the TUI pane left in the main window. -/
def envC7one : Env :=
  { allPanes := [0], mainPanes := [0], stashPanes := [], killOk := true }

/-- Two bound resources for the swap round-trip scenario. -/
def mC6ex : Manager :=
  { tuiPane := 0, bottomPane := 5, stashWindow := 2, aiStashWindow := 3,
    resourcePanes := [("a", 5), ("b", 6)], aiPanes := [], activeResource := "a",
    activeAIChat := "", stashedPanes := [6], aiCounter := 0, next := 7 }

/-- Observation for the `mC6ex` scenario: both resource panes stay live. -/
def envC6ex : Env :=
  { allPanes := [0, 1, 5, 6], mainPanes := [0, 5], stashPanes := [6], killOk := true }

/-- Benign pool observation (empty window listing, everything succeeds). -/
def peOk : PoolEnv :=
  { listWindows := some [], closeOk := true, switchOk := true, setupOk := true }

/-- Pool observation marking "diag-a" as the active window. -/
def peActiveA : PoolEnv :=
  { listWindows := some [{ name := "diag-a", active := true }],
    closeOk := true, switchOk := true, setupOk := true }

/-- Pool observation whose `setupFunc` fails. -/
def peSetupFail : PoolEnv :=
  { listWindows := some [], closeOk := true, switchOk := true, setupOk := false }

/-- A pool of capacity 1 holding only "diag-a". -/
def pSoleA : WindowPool :=
  WindowPool.runPool (WindowPool.new 1 "diag-") [("a", peOk)]

/-- A capped pool over a fresh manager. -/
def cpEx : CappedWindowPool :=
  { manager := mEx, maxWindows := 2, pref := "r-", windows := [] }

/-! ## Association-list lemmas -/

theorem lookupId_eq_none_of_not_mem {k : String} {l : List (String × Handle)}
    (h : k ∉ l.map Prod.fst) : lookupId k l = none := by
  induction l with
  | nil => rfl
  | cons e rest ih =>
    simp only [List.map_cons, List.mem_cons, not_or] at h
    simp only [lookupId, if_neg (fun he : e.1 = k => h.1 he.symm)]
    exact ih h.2

theorem mem_of_lookupId {k : String} {v : Handle} {l : List (String × Handle)}
    (h : lookupId k l = some v) : (k, v) ∈ l := by
  induction l with
  | nil => simp [lookupId] at h
  | cons e rest ih =>
    obtain ⟨a, b⟩ := e
    by_cases he : a = k
    · simp only [lookupId, if_pos he] at h
      injection h with h2
      subst he; subst h2
      exact List.mem_cons_self _ _
    · simp only [lookupId, if_neg he] at h
      exact List.mem_cons_of_mem _ (ih h)

theorem lookupId_filter_some {k : String} {v : Handle} {l : List (String × Handle)}
    {P : String × Handle → Bool}
    (h : lookupId k l = some v) (hP : P (k, v) = true) :
    lookupId k (l.filter P) = some v := by
  induction l with
  | nil => simp [lookupId] at h
  | cons e rest ih =>
    obtain ⟨a, b⟩ := e
    by_cases he : a = k
    · simp only [lookupId, if_pos he] at h
      injection h with h2
      subst he; subst h2
      simp [List.filter_cons, hP, lookupId]
    · simp only [lookupId, if_neg he] at h
      simp only [List.filter_cons]
      cases hPe : P (a, b)
      · simpa using ih h
      · simp only [lookupId, if_neg he]
        exact ih h

theorem lookupId_filter_none {k : String} {v : Handle} {l : List (String × Handle)}
    {P : String × Handle → Bool}
    (hnd : keysNodup l) (h : lookupId k l = some v) (hP : P (k, v) = false) :
    lookupId k (l.filter P) = none := by
  induction l with
  | nil => simp [lookupId] at h
  | cons e rest ih =>
    obtain ⟨a, b⟩ := e
    have hnd' : keysNodup rest := by
      simpa [keysNodup] using (List.Nodup.of_cons (by simpa [keysNodup] using hnd))
    by_cases he : a = k
    · simp only [lookupId, if_pos he] at h
      injection h with h2
      subst he; subst h2
      simp only [List.filter_cons, hP, cond_false, if_neg]
      apply lookupId_eq_none_of_not_mem
      intro hmem
      have hk : a ∉ rest.map Prod.fst := by
        have := (by simpa [keysNodup] using hnd : a ∉ rest.map Prod.fst ∧ _).1
        exact this
      exact hk ((List.map_subset Prod.fst (List.filter_sublist rest).subset) hmem)
    · simp only [lookupId, if_neg he] at h
      simp only [List.filter_cons]
      cases hPe : P (a, b)
      · simpa using ih hnd' h
      · simp only [lookupId, if_neg he]
        exact ih hnd' h

theorem lookupId_eraseIdx {k : String} {v : Handle} {l : List (String × Handle)}
    {i : Nat} {e : String × Handle}
    (hi : l.get? i = some e) (hne : e.1 ≠ k) (h : lookupId k l = some v) :
    lookupId k (l.eraseIdx i) = some v := by
  induction l generalizing i with
  | nil => simp at hi
  | cons a rest ih =>
    cases i with
    | zero =>
      simp only [List.get?] at hi
      obtain ⟨rfl⟩ := hi
      simp only [lookupId, if_neg hne] at h
      simpa [List.eraseIdx] using h
    | succ j =>
      simp only [List.get?] at hi
      by_cases ha : a.1 = k
      · simp only [lookupId, if_pos ha] at h ⊢
        simpa [List.eraseIdx, lookupId, ha] using h
      · simp only [lookupId, if_neg ha] at h
        simpa [List.eraseIdx, lookupId, ha] using ih hi h

/-! ## `cleanupDeadPanes` projection lemmas -/

namespace Manager

theorem cleanup_resourcePanes (env : Env) (m : Manager) :
    (cleanupDeadPanes env m).resourcePanes
      = m.resourcePanes.filter (fun e => env.allPanes.contains e.2) := by
  simp only [cleanupDeadPanes]
  split
  · rfl
  · split
    · rfl
    · split
      · split <;> rfl
      · rfl

theorem cleanup_aiPanes (env : Env) (m : Manager) :
    (cleanupDeadPanes env m).aiPanes
      = m.aiPanes.filter (fun e => env.allPanes.contains e.2) := by
  simp only [cleanupDeadPanes]
  split
  · rfl
  · split
    · rfl
    · split
      · split <;> rfl
      · rfl

theorem cleanup_activeResource_cases (env : Env) (m : Manager) :
    (cleanupDeadPanes env m).activeResource = m.activeResource ∨
    (cleanupDeadPanes env m).activeResource = "" := by
  simp only [cleanupDeadPanes]
  split
  · left; rfl
  · split
    · right; rfl
    · split
      · split <;> (left; rfl)
      · left; rfl

theorem cleanup_activeAIChat_cases (env : Env) (m : Manager) :
    (cleanupDeadPanes env m).activeAIChat = m.activeAIChat ∨
    (cleanupDeadPanes env m).activeAIChat = "" := by
  simp only [cleanupDeadPanes]
  split
  · split <;> simp
  · split
    · right; rfl
    · split
      · split <;> (split <;> simp)
      · split <;> simp

theorem cleanup_AR_of_empty (env : Env) (m : Manager)
    (h : m.activeResource = "") :
    (cleanupDeadPanes env m).activeResource = "" := by
  rcases cleanup_activeResource_cases env m with h' | h' <;> simp [h', h]

theorem cleanup_AI_of_empty (env : Env) (m : Manager)
    (h : m.activeAIChat = "") :
    (cleanupDeadPanes env m).activeAIChat = "" := by
  rcases cleanup_activeAIChat_cases env m with h' | h' <;> simp [h', h]

theorem cleanup_AR_of_bottom_live (env : Env) (m : Manager)
    (h : env.allPanes.contains m.bottomPane = true) :
    (cleanupDeadPanes env m).activeResource = m.activeResource := by
  have h' : m.bottomPane ∈ env.allPanes := by simpa using h
  simp [cleanupDeadPanes, h']

end Manager

/-! ## Claim C1 -/

/-- C1, counterexample.  The claim asserts that when the main window's live
pane count differs from 2 the registry maps are unchanged "for every prior
state and every identity, including one not yet bound".  Against a
three-pane observation, `AttachResourceTerminal` on the unbound identity
"x" does return the structural-precondition error, yet the pane created
*before* the precondition check stays registered: the resource map gains
the binding ("x", 5). -/
theorem C1_counterexample :
    (Manager.AttachResourceTerminal envEx3 "x" mEx).2 = some (.paneCount 3) ∧
    lookupId "x" mEx.resourcePanes = none ∧
    lookupId "x" (Manager.AttachResourceTerminal envEx3 "x" mEx).1.resourcePanes
      = some 5 :=
  ⟨rfl, rfl, rfl⟩

/-- C1, amended.  When the live pane count of the main window differs from
the expected 2, both Activate operations return an error without issuing a
swap: the slot's bottom-pane handle and both active-identity markers are
unchanged.  `AttachResourceTerminal` returns the structural-precondition
error whenever it reaches the check (always for a bound identity; for an
unbound one provided the stash window has panes, otherwise it fails even
earlier with a different error); its registry maps are unchanged only when
the identity was already bound — an unbound identity keeps the
freshly-created pane registered.  `AttachAIChat` always registers the fresh
chat binding before failing the check. -/
theorem C1_amended (env : Env) (m : Manager) (id : String)
    (hpc : env.mainPanes.length ≠ 2) :
    ((Manager.AttachResourceTerminal env id m).2.isSome = true ∧
     (Manager.AttachResourceTerminal env id m).1.bottomPane = m.bottomPane ∧
     (Manager.AttachResourceTerminal env id m).1.activeResource = m.activeResource ∧
     (Manager.AttachResourceTerminal env id m).1.activeAIChat = m.activeAIChat ∧
     (Manager.AttachResourceTerminal env id m).1.aiPanes = m.aiPanes ∧
     (((lookupId id m.resourcePanes).isSome = true ∨ env.stashPanes ≠ []) →
       (Manager.AttachResourceTerminal env id m).2
         = some (.paneCount env.mainPanes.length)) ∧
     ((lookupId id m.resourcePanes).isSome = true →
       (Manager.AttachResourceTerminal env id m).1.resourcePanes
         = m.resourcePanes) ∧
     (lookupId id m.resourcePanes = none → env.stashPanes ≠ [] →
       (Manager.AttachResourceTerminal env id m).1.resourcePanes
         = (id, m.next + 1) :: m.resourcePanes)) ∧
    ((Manager.AttachAIChat env m).2 = some (.paneCount env.mainPanes.length) ∧
     (Manager.AttachAIChat env m).1.bottomPane = m.bottomPane ∧
     (Manager.AttachAIChat env m).1.activeResource = m.activeResource ∧
     (Manager.AttachAIChat env m).1.activeAIChat = m.activeAIChat ∧
     (Manager.AttachAIChat env m).1.resourcePanes = m.resourcePanes ∧
     (Manager.AttachAIChat env m).1.aiPanes
       = (Manager.aiId (Manager.nextAINum m), m.next + 1) :: m.aiPanes) := by
  constructor
  · cases hl : lookupId id m.resourcePanes with
    | some pane =>
      simp [Manager.AttachResourceTerminal, hl, hpc]
    | none =>
      by_cases hs : env.stashPanes.length = 0
      · have hs' : env.stashPanes = [] := List.length_eq_zero.mp hs
        simp [Manager.AttachResourceTerminal, hl, hs, hs', hpc]
      · simp [Manager.AttachResourceTerminal, hl, hs, hpc]
  · simp [Manager.AttachAIChat, hpc]

/-- C1 witness: the amended theorem applied to the concrete three-pane
observation. -/
theorem C1_witness :
    (Manager.AttachResourceTerminal envEx3 "x" mEx).1.bottomPane = mEx.bottomPane :=
  (C1_amended envEx3 mEx "x" (by decide)).1.2.1

/-! ## Claim C4 -/

theorem cleanup_AI_of_any (env : Env) (m : Manager)
    (h : (m.aiPanes.filter (fun e => ¬ env.allPanes.contains e.2)).any
          (fun e => e.1 == m.activeAIChat) = true) :
    (Manager.cleanupDeadPanes env m).activeAIChat = "" := by
  simp only [Manager.cleanupDeadPanes, h]
  split
  · simp
  · split
    · rfl
    · split
      · split <;> simp
      · simp

/-- C4, counterexample.  Resource "left" is bound to pane 2 and is the
active slot occupant; pane 2 is absent from the live enumeration.
`cleanupDeadPanes` removes the binding (so `Resolve` finds nothing), but —
contrary to the claim — the active-resource marker is *not* cleared: the
removal loop for resources, unlike the one for AI chats, never touches
`activeResource`. -/
theorem C4_counterexample :
    lookupId "left" mC4ex.resourcePanes = some 2 ∧
    mC4ex.activeResource = "left" ∧
    envC4ex.allPanes.contains (2 : Handle) = false ∧
    lookupId "left" (Manager.cleanupDeadPanes envC4ex mC4ex).resourcePanes = none ∧
    (Manager.cleanupDeadPanes envC4ex mC4ex).activeResource = "left" :=
  ⟨rfl, rfl, rfl, rfl, rfl⟩

/-- C4, amended.  `cleanupDeadPanes` removes every binding whose handle is
absent from the live enumeration, in both registry maps, after which lookup
on a removed identity returns none; when the *AI* binding backing the
active AI marker is removed, that marker is cleared.  The active *resource*
marker, however, is not cleared by binding removal (while the slot's bottom
pane is alive it is left exactly as it was; only the dead-bottom single-pane
repair path resets it). -/
theorem C4_amended (env : Env) (m : Manager)
    (hres : keysNodup m.resourcePanes) (hai : keysNodup m.aiPanes) :
    (∀ id p, lookupId id m.resourcePanes = some p →
       env.allPanes.contains p = false →
       lookupId id (Manager.cleanupDeadPanes env m).resourcePanes = none) ∧
    (∀ id p, lookupId id m.aiPanes = some p →
       env.allPanes.contains p = false →
       lookupId id (Manager.cleanupDeadPanes env m).aiPanes = none) ∧
    (∀ p, lookupId m.activeAIChat m.aiPanes = some p →
       env.allPanes.contains p = false →
       (Manager.cleanupDeadPanes env m).activeAIChat = "") ∧
    (env.allPanes.contains m.bottomPane = true →
       (Manager.cleanupDeadPanes env m).activeResource = m.activeResource) := by
  refine ⟨?_, ?_, ?_, ?_⟩
  · intro id p hl hd
    rw [Manager.cleanup_resourcePanes]
    exact lookupId_filter_none hres hl hd
  · intro id p hl hd
    rw [Manager.cleanup_aiPanes]
    exact lookupId_filter_none hai hl hd
  · intro p hl hd
    apply cleanup_AI_of_any
    rw [List.any_eq_true]
    refine ⟨(m.activeAIChat, p), ?_, by simp⟩
    rw [List.mem_filter]
    exact ⟨mem_of_lookupId hl, by simpa using hd⟩
  · exact Manager.cleanup_AR_of_bottom_live env m

/-- C4 witness: the amended theorem applied to the "left"/pane-2 scenario. -/
theorem C4_witness :
    lookupId "left" (Manager.cleanupDeadPanes envC4ex mC4ex).resourcePanes = none :=
  (C4_amended envC4ex mC4ex (by decide) (by decide)).1 "left" 2 (by decide) (by decide)

/-! ## Claim C7 -/

/-- C7, confirmed.  When reconciliation finds the slot's recorded bottom
pane absent from the live set: with exactly one pane left in the main
window it creates a fresh placeholder (the next gateway handle), makes it
the slot handle and clears both active-identity markers; with two panes it
adopts the live pane that is not the fixed TUI pane as the slot handle and
creates nothing (the handle counter is untouched).  The two-pane conclusion
is stated for both positions of the TUI pane (the source takes the first
non-TUI pane). -/
theorem C7 (env : Env) (m : Manager)
    (hdead : env.allPanes.contains m.bottomPane = false) :
    (env.mainPanes.length = 1 →
       (Manager.cleanupDeadPanes env m).bottomPane = m.next ∧
       (Manager.cleanupDeadPanes env m).next = m.next + 1 ∧
       (Manager.cleanupDeadPanes env m).activeResource = "" ∧
       (Manager.cleanupDeadPanes env m).activeAIChat = "") ∧
    (∀ b : Handle, env.mainPanes = [m.tuiPane, b] → b ≠ m.tuiPane →
       (Manager.cleanupDeadPanes env m).bottomPane = b ∧
       (Manager.cleanupDeadPanes env m).next = m.next) ∧
    (∀ a b : Handle, env.mainPanes = [a, b] → a ≠ m.tuiPane →
       (Manager.cleanupDeadPanes env m).bottomPane = a ∧
       (Manager.cleanupDeadPanes env m).next = m.next) := by
  have hdead' : m.bottomPane ∉ env.allPanes := by simpa using hdead
  refine ⟨?_, ?_, ?_⟩
  · intro h1
    simp [Manager.cleanupDeadPanes, hdead', h1]
  · intro b hmp hb
    simp [Manager.cleanupDeadPanes, hdead', hmp, hb]
  · intro a b hmp ha
    simp [Manager.cleanupDeadPanes, hdead', hmp, ha]

/-- C7 witness: applied to the dead-slot state, covering both the two-pane
adoption and (with the one-pane observation) the placeholder recreation. -/
theorem C7_witness :
    ((Manager.cleanupDeadPanes envC4ex mC7ex).bottomPane = 1 ∧
     (Manager.cleanupDeadPanes envC4ex mC7ex).next = mC7ex.next) ∧
    ((Manager.cleanupDeadPanes envC7one mC7ex).bottomPane = mC7ex.next ∧
     (Manager.cleanupDeadPanes envC7one mC7ex).next = mC7ex.next + 1 ∧
     (Manager.cleanupDeadPanes envC7one mC7ex).activeResource = "" ∧
     (Manager.cleanupDeadPanes envC7one mC7ex).activeAIChat = "") :=
  ⟨(C7 envC4ex mC7ex (by decide)).2.1 1 rfl (by decide),
   (C7 envC7one mC7ex (by decide)).1 (by decide)⟩

/-! ## Claim C8 -/

theorem mutex_cleanup (env : Env) (m : Manager) (h : mutexInv m) :
    mutexInv (Manager.cleanupDeadPanes env m) := by
  rcases h with h | h
  · exact Or.inl (Manager.cleanup_AR_of_empty env m h)
  · rcases Manager.cleanup_activeAIChat_cases env m with h' | h'
    · exact Or.inr (h'.trans h)
    · exact Or.inr h'

theorem mutex_step (m : Manager) (op : MOp) (h : mutexInv m) :
    mutexInv (stepM m op) := by
  cases op with
  | attachRes env id =>
    simp only [stepM, Manager.AttachResourceTerminal]
    cases hl : lookupId id m.resourcePanes with
    | some pane =>
      by_cases hp : env.mainPanes.length ≠ 2
      · simpa [hp] using h
      · simpa [hp] using mutex_cleanup env _ (Or.inr rfl)
    | none =>
      by_cases hs : env.stashPanes.length = 0
      · simpa [hs] using h
      · by_cases hp : env.mainPanes.length ≠ 2
        · simpa [hs, hp] using h
        · simpa [hs, hp] using mutex_cleanup env _ (Or.inr rfl)
  | attachAI env =>
    simp only [stepM, Manager.AttachAIChat]
    by_cases hp : env.mainPanes.length ≠ 2
    · simpa [hp] using h
    · simpa [hp] using mutex_cleanup env _ (Or.inl rfl)
  | closeRes env id =>
    simp only [stepM, Manager.CloseResourcePane]
    cases hl : lookupId id m.resourcePanes with
    | none => exact h
    | some pane =>
      by_cases ha : id = m.activeResource
      · by_cases hk : env.killOk = true
        · simpa [ha, hk] using mutex_cleanup env _ (Or.inl rfl)
        · simpa [ha, hk] using h
      · by_cases hk : env.killOk = true
        · refine ?_
          have hm : mutexInv
              { m with resourcePanes := removeId id m.resourcePanes
                       stashedPanes := env.stashPanes } := h
          simpa [ha, hk] using mutex_cleanup env _ hm
        · simpa [ha, hk] using h
  | chooser env sel =>
    simp only [stepM, Manager.applyChooserSelection]
    cases sel with
    | ai id =>
      by_cases h2 : 2 ≤ env.mainPanes.length
      · cases hf : env.mainPanes.find? (fun p => p ≠ m.tuiPane) with
        | some p => simpa [h2, hf] using mutex_cleanup env _ (Or.inl rfl)
        | none => simpa [h2, hf] using mutex_cleanup env _ (Or.inl rfl)
      · simpa [h2] using mutex_cleanup env _ (Or.inl rfl)
    | res id =>
      by_cases h2 : 2 ≤ env.mainPanes.length
      · cases hf : env.mainPanes.find? (fun p => p ≠ m.tuiPane) with
        | some p => simpa [h2, hf] using mutex_cleanup env _ (Or.inr rfl)
        | none => simpa [h2, hf] using mutex_cleanup env _ (Or.inr rfl)
      · simpa [h2] using mutex_cleanup env _ (Or.inr rfl)
  | reconcile env => exact mutex_cleanup env m h

theorem mutex_runM (m : Manager) (ops : List MOp) (h : mutexInv m) :
    mutexInv (runM m ops) := by
  induction ops generalizing m with
  | nil => exact h
  | cons op ops ih => exact ih _ (mutex_step m op h)

theorem mutex_setup (env : Env) (tui : Handle) :
    mutexInv (Manager.setup env (Manager.new tui)).1 := by
  simp only [Manager.setup, Manager.new]
  by_cases h1 : env.mainPanes.length = 1
  · simpa [h1] using mutex_cleanup env _ (Or.inl rfl)
  · by_cases h2 : env.mainPanes.length = 2
    · cases hf : env.mainPanes.find? (fun p => p ≠ tui) with
      | some p => simpa [h1, h2, hf] using mutex_cleanup env _ (Or.inl rfl)
      | none => simpa [h1, h2, hf] using mutex_cleanup env _ (Or.inl rfl)
    · simp [h1, h2, mutexInv]

/-- C8, confirmed.  Starting from `Setup`, after any sequence of public
operations (activate resource, attach AI chat, close resource, chooser
selection, reconcile) at most one of the two active-identity markers is
non-empty; moreover a successful activation in one category always leaves
the other category's marker cleared. -/
theorem C8 :
    (∀ (tui : Handle) (env0 : Env) (ops : List MOp),
       mutexInv (runM (Manager.setup env0 (Manager.new tui)).1 ops)) ∧
    (∀ (env : Env) (m : Manager) (id : String),
       (Manager.AttachResourceTerminal env id m).2 = none →
       (Manager.AttachResourceTerminal env id m).1.activeAIChat = "") ∧
    (∀ (env : Env) (m : Manager),
       (Manager.AttachAIChat env m).2 = none →
       (Manager.AttachAIChat env m).1.activeResource = "") := by
  refine ⟨fun tui env0 ops => mutex_runM _ ops (mutex_setup env0 tui), ?_, ?_⟩
  · intro env m id hok
    simp only [Manager.AttachResourceTerminal] at hok ⊢
    cases hl : lookupId id m.resourcePanes with
    | some pane =>
      by_cases hp : env.mainPanes.length ≠ 2
      · simp [hl, hp] at hok
      · simpa [hl, hp] using Manager.cleanup_AI_of_empty env _ rfl
    | none =>
      by_cases hs : env.stashPanes.length = 0
      · simp [hl, hs] at hok
      · by_cases hp : env.mainPanes.length ≠ 2
        · simp [hl, hs, hp] at hok
        · simpa [hl, hs, hp] using Manager.cleanup_AI_of_empty env _ rfl
  · intro env m hok
    simp only [Manager.AttachAIChat] at hok ⊢
    by_cases hp : env.mainPanes.length ≠ 2
    · simp [hp] at hok
    · simpa [hp] using Manager.cleanup_AR_of_empty env _ rfl

/-- C8 witness: the invariant on a concrete run, and the cross-category
clearing on a concrete successful activation. -/
theorem C8_witness :
    mutexInv (runM (Manager.setup envEx2 (Manager.new 0)).1
      [.attachRes envEx2 "x", .attachAI envEx2]) ∧
    (Manager.AttachResourceTerminal envC6ex "a" mC6ex).1.activeAIChat = "" :=
  ⟨C8.1 0 envEx2 [.attachRes envEx2 "x", .attachAI envEx2],
   C8.2.1 envC6ex mC6ex "a" (by decide)⟩

/-! ## Claim C5 -/

theorem handleInv_sub (m m' : Manager) (hs : m'.handles.Sublist m.handles)
    (hn : m.next ≤ m'.next) (h : handleInv m) : handleInv m' :=
  ⟨fun x hx => lt_of_lt_of_le (h.1 x (hs.subset hx)) hn, hs.nodup h.2⟩

theorem handles_cleanup_sublist (env : Env) (m : Manager) :
    (Manager.cleanupDeadPanes env m).handles.Sublist m.handles := by
  unfold Manager.handles
  rw [Manager.cleanup_resourcePanes, Manager.cleanup_aiPanes]
  exact ((List.filter_sublist m.resourcePanes).append
    (List.filter_sublist m.aiPanes)).map Prod.snd

theorem cleanup_next_ge (env : Env) (m : Manager) :
    m.next ≤ (Manager.cleanupDeadPanes env m).next := by
  simp only [Manager.cleanupDeadPanes]
  split
  · exact Nat.le_refl _
  · split
    · exact Nat.le_succ _
    · split
      · split <;> exact Nat.le_refl _
      · exact Nat.le_refl _

theorem handleInv_cleanup (env : Env) (m : Manager) (h : handleInv m) :
    handleInv (Manager.cleanupDeadPanes env m) :=
  handleInv_sub m _ (handles_cleanup_sublist env m) (cleanup_next_ge env m) h

theorem handleInv_insert_res (m : Manager) (id : String) (h : handleInv m) :
    handleInv { m with resourcePanes := (id, m.next + 1) :: m.resourcePanes,
                       next := m.next + 2 } := by
  obtain ⟨hb, hnd⟩ := h
  have hh : ({ m with resourcePanes := (id, m.next + 1) :: m.resourcePanes,
                      next := m.next + 2 } : Manager).handles
      = (m.next + 1) :: m.handles := by
    simp [Manager.handles]
  constructor
  · intro x hx
    rw [hh] at hx
    show x < m.next + 2
    rcases List.mem_cons.mp hx with rfl | hx'
    · exact Nat.lt_succ_self _
    · exact Nat.lt_succ_of_lt (Nat.lt_succ_of_lt (hb x hx'))
  · rw [hh]
    refine List.nodup_cons.mpr ⟨fun hm => ?_, hnd⟩
    exact Nat.lt_irrefl _ (Nat.lt_of_succ_lt (hb _ hm))

theorem handleInv_insert_ai (m : Manager) (id : String) (c : Nat) (h : handleInv m) :
    handleInv { m with aiPanes := (id, m.next + 1) :: m.aiPanes,
                       aiCounter := c, next := m.next + 2 } := by
  obtain ⟨hb, hnd⟩ := h
  have hh : ({ m with aiPanes := (id, m.next + 1) :: m.aiPanes,
                      aiCounter := c, next := m.next + 2 } : Manager).handles
      = m.resourcePanes.map Prod.snd
          ++ (m.next + 1) :: m.aiPanes.map Prod.snd := by
    simp [Manager.handles]
  have hh0 : m.handles = m.resourcePanes.map Prod.snd ++ m.aiPanes.map Prod.snd := by
    simp [Manager.handles]
  constructor
  · intro x hx
    rw [hh] at hx
    show x < m.next + 2
    rcases List.mem_append.mp hx with hx' | hx'
    · exact Nat.lt_succ_of_lt (Nat.lt_succ_of_lt
        (hb x (by rw [hh0]; exact List.mem_append_left _ hx')))
    · rcases List.mem_cons.mp hx' with rfl | hx''
      · exact Nat.lt_succ_self _
      · exact Nat.lt_succ_of_lt (Nat.lt_succ_of_lt
          (hb x (by rw [hh0]; exact List.mem_append_right _ hx'')))
  · rw [hh]
    rw [List.nodup_middle]
    refine List.nodup_cons.mpr ⟨fun hm => ?_, by rw [hh0] at hnd; exact hnd⟩
    have h1 : m.next + 1 ∈ m.handles := by rw [hh0]; exact hm
    exact Nat.lt_irrefl _ (Nat.lt_of_succ_lt (hb _ h1))

theorem handleInv_step (m : Manager) (op : MOp) (h : handleInv m) :
    handleInv (stepM m op) := by
  cases op with
  | attachRes env id =>
    simp only [stepM, Manager.AttachResourceTerminal]
    cases hl : lookupId id m.resourcePanes with
    | some pane =>
      by_cases hp : env.mainPanes.length ≠ 2
      · simpa [hp] using h
      · have h2 : handleInv
            { m with bottomPane := pane
                     activeResource := id
                     activeAIChat := ""
                     stashedPanes := env.stashPanes } :=
          handleInv_sub m _ (by unfold Manager.handles; exact List.Sublist.refl _)
            (Nat.le_refl _) h
        simpa [hp] using handleInv_cleanup env _ h2
    | none =>
      by_cases hs : env.stashPanes.length = 0
      · simpa [hs] using h
      · have h1 := handleInv_insert_res m id h
        by_cases hp : env.mainPanes.length ≠ 2
        · simpa [hs, hp] using h1
        · have h2 : handleInv
              { m with resourcePanes := (id, m.next + 1) :: m.resourcePanes
                       next := m.next + 2
                       bottomPane := m.next + 1
                       activeResource := id
                       activeAIChat := ""
                       stashedPanes := env.stashPanes } :=
            handleInv_sub _ _ (by unfold Manager.handles; exact List.Sublist.refl _)
              (Nat.le_refl _) h1
          simpa [hs, hp] using handleInv_cleanup env _ h2
  | attachAI env =>
    simp only [stepM, Manager.AttachAIChat]
    have h1 := handleInv_insert_ai m (Manager.aiId (Manager.nextAINum m))
      (if Manager.nextAINum m > m.aiCounter then Manager.nextAINum m else m.aiCounter) h
    by_cases hp : env.mainPanes.length ≠ 2
    · simpa [hp] using h1
    · have h2 : handleInv
          { m with aiPanes := (Manager.aiId (Manager.nextAINum m), m.next + 1)
                     :: m.aiPanes
                   aiCounter := if Manager.nextAINum m > m.aiCounter then
                     Manager.nextAINum m else m.aiCounter
                   next := m.next + 2
                   bottomPane := m.next + 1
                   activeAIChat := Manager.aiId (Manager.nextAINum m)
                   activeResource := ""
                   stashedPanes := env.stashPanes } :=
        handleInv_sub _ _ (by unfold Manager.handles; exact List.Sublist.refl _)
          (Nat.le_refl _) h1
      simpa [hp] using handleInv_cleanup env _ h2
  | closeRes env id =>
    simp only [stepM, Manager.CloseResourcePane]
    cases hl : lookupId id m.resourcePanes with
    | none => exact h
    | some pane =>
      have hsubR : (removeId id m.resourcePanes).Sublist m.resourcePanes :=
        List.filter_sublist _
      by_cases ha : id = m.activeResource
      · by_cases hk : env.killOk = true
        · have h2 : handleInv
              { m with bottomPane := m.next
                       next := m.next + 1
                       activeResource := ""
                       resourcePanes := removeId id m.resourcePanes
                       stashedPanes := env.stashPanes } := by
            refine handleInv_sub m _ ?_ (Nat.le_succ _) h
            unfold Manager.handles
            exact (hsubR.append (List.Sublist.refl _)).map Prod.snd
          simpa [ha, hk] using handleInv_cleanup env _ h2
        · simpa [ha, hk] using h
      · by_cases hk : env.killOk = true
        · have h2 : handleInv
              { m with resourcePanes := removeId id m.resourcePanes
                       stashedPanes := env.stashPanes } := by
            refine handleInv_sub m _ ?_ (Nat.le_refl _) h
            unfold Manager.handles
            exact (hsubR.append (List.Sublist.refl _)).map Prod.snd
          simpa [ha, hk] using handleInv_cleanup env _ h2
        · simpa [ha, hk] using h
  | chooser env sel =>
    simp only [stepM, Manager.applyChooserSelection]
    have hmk : ∀ m' : Manager, m'.resourcePanes = m.resourcePanes →
        m'.aiPanes = m.aiPanes → m'.next = m.next → handleInv m' := by
      intro m' hr hai hn
      refine handleInv_sub m m' ?_ (le_of_eq hn.symm) h
      unfold Manager.handles
      rw [hr, hai]
    cases sel with
    | ai id =>
      apply handleInv_cleanup
      refine hmk _ ?_ ?_ ?_ <;>
        · split
          · split <;> rfl
          · rfl
    | res id =>
      apply handleInv_cleanup
      refine hmk _ ?_ ?_ ?_ <;>
        · split
          · split <;> rfl
          · rfl
  | reconcile env => exact handleInv_cleanup env m h

theorem handleInv_runM (m : Manager) (ops : List MOp) (h : handleInv m) :
    handleInv (runM m ops) := by
  induction ops generalizing m with
  | nil => exact h
  | cons op ops ih => exact ih _ (handleInv_step m op h)

theorem handleInv_setup (env : Env) (tui : Handle) :
    handleInv (Manager.setup env (Manager.new tui)).1 := by
  have h0 : handleInv (Manager.new tui) := by
    constructor
    · intro x hx
      simp [Manager.handles, Manager.new] at hx
    · simp [Manager.handles, Manager.new]
  simp only [Manager.setup]
  have hmk : ∀ m' : Manager, m'.resourcePanes = [] → m'.aiPanes = [] → handleInv m' := by
    intro m' hr hai
    constructor
    · intro x hx
      simp [Manager.handles, hr, hai] at hx
    · simp [Manager.handles, hr, hai]
  split
  · exact h0
  · rename_i m1 heq
    have hr : m1.resourcePanes = [] ∧ m1.aiPanes = [] := by
      split at heq
      · injection heq with h
        subst h
        exact ⟨rfl, rfl⟩
      · split at heq
        · injection heq with h
          subst h
          constructor <;> (split <;> rfl)
        · simp at heq
    exact handleInv_cleanup env _ (hmk _ hr.1 hr.2)

/-- C5, confirmed.  Starting from `Setup` and with the gateway assigning a
fresh handle to every created object (the counter model), after any
sequence of public operations no two bindings in the registry — the
resource map and the AI map taken together — hold the same physical
handle. -/
theorem C5 (tui : Handle) (env0 : Env) (ops : List MOp) :
    ((runM (Manager.setup env0 (Manager.new tui)).1 ops).handles).Nodup :=
  (handleInv_runM _ ops (handleInv_setup env0 tui)).2

/-! ## Claim C6 -/

/-- `AttachResourceTerminal` never rewrites an existing resource binding:
as long as the bound pane stays live (so the embedded reconciliation pass
keeps it), the handle bound to `A` is untouched by activating any
identity. -/
theorem lookup_attachRes_preserved (env : Env) (X A : String) (m : Manager)
    (h : Handle)
    (hA : lookupId A m.resourcePanes = some h)
    (hlive : env.allPanes.contains h = true) :
    lookupId A (Manager.AttachResourceTerminal env X m).1.resourcePanes = some h := by
  simp only [Manager.AttachResourceTerminal]
  cases hl : lookupId X m.resourcePanes with
  | some pane =>
    by_cases hp : env.mainPanes.length ≠ 2
    · simpa [hp] using hA
    · have hc : lookupId A (Manager.cleanupDeadPanes env
          { m with bottomPane := pane
                   activeResource := X
                   activeAIChat := ""
                   stashedPanes := env.stashPanes }).resourcePanes = some h := by
        rw [Manager.cleanup_resourcePanes]
        exact lookupId_filter_some hA hlive
      simpa [hp] using hc
  | none =>
    have hXA : X ≠ A := by
      intro hx
      rw [hx, hA] at hl
      cases hl
    by_cases hs : env.stashPanes.length = 0
    · simpa [hs] using hA
    · have hA1 : lookupId A ((X, m.next + 1) :: m.resourcePanes) = some h := by
        simp [lookupId, hXA, hA]
      by_cases hp : env.mainPanes.length ≠ 2
      · simpa [hs, hp] using hA1
      · have hc : lookupId A (Manager.cleanupDeadPanes env
            { m with resourcePanes := (X, m.next + 1) :: m.resourcePanes
                     next := m.next + 2
                     bottomPane := m.next + 1
                     activeResource := X
                     activeAIChat := ""
                     stashedPanes := env.stashPanes }).resourcePanes = some h := by
          rw [Manager.cleanup_resourcePanes]
          exact lookupId_filter_some hA1 hlive
        simpa [hs, hp] using hc

/-- C6, confirmed.  For distinct already-bound identities `A` and `B`, after
`Activate(A); Activate(B); Activate(A)` (with no external pane deaths, i.e.
`A`'s pane stays in every live enumeration) the handle bound to `A` equals
the handle bound before the sequence: the swap exchanges pane content, never
the binding's handle. -/
theorem C6 (m : Manager) (A B : String) (hA hB : Handle) (e1 e2 e3 : Env)
    (hAB : A ≠ B)
    (h1 : lookupId A m.resourcePanes = some hA)
    (h2 : lookupId B m.resourcePanes = some hB)
    (l1 : e1.allPanes.contains hA = true)
    (l2 : e2.allPanes.contains hA = true)
    (l3 : e3.allPanes.contains hA = true) :
    lookupId A (runM m [.attachRes e1 A, .attachRes e2 B,
      .attachRes e3 A]).resourcePanes = some hA := by
  simp only [runM, stepM]
  exact lookup_attachRes_preserved e3 A A _ hA
    (lookup_attachRes_preserved e2 B A _ hA
      (lookup_attachRes_preserved e1 A A m hA h1 l1) l2) l3

/-- C6 witness: the round trip on two concrete bound resources. -/
theorem C6_witness :
    lookupId "a" (runM mC6ex [.attachRes envC6ex "a", .attachRes envC6ex "b",
      .attachRes envC6ex "a"]).resourcePanes = some 5 :=
  C6 mC6ex "a" "b" 5 6 envC6ex envC6ex envC6ex (by decide) rfl rfl rfl rfl rfl

/-! ## Claim C10 -/

theorem digitVal_digitChar (d : Nat) (h : d < 10) :
    digitVal (Nat.digitChar d) = d := by
  interval_cases d <;> rfl

theorem decVal_toDigitsCore (fuel : Nat) :
    ∀ (n : Nat) (l : List Char), n < fuel →
      (Nat.toDigitsCore 10 fuel n l).foldl (fun a c => a * 10 + digitVal c) 0
        = l.foldl (fun a c => a * 10 + digitVal c) n := by
  induction fuel with
  | zero =>
    intro n l h
    exact absurd h (Nat.not_lt_zero n)
  | succ f ih =>
    intro n l h
    simp only [Nat.toDigitsCore]
    have hmod : n % 10 < 10 := Nat.mod_lt n (by norm_num)
    by_cases h0 : n / 10 = 0
    · rw [if_pos h0, List.foldl_cons]
      have hrepr : 0 * 10 + digitVal ((n % 10).digitChar) = n := by
        rw [digitVal_digitChar _ hmod]
        have := Nat.div_add_mod n 10
        omega
      rw [hrepr]
    · rw [if_neg h0]
      have hn : 0 < n := Nat.pos_of_ne_zero (fun hz => by subst hz; simp at h0)
      have hdiv : n / 10 < f := by
        have := Nat.div_lt_self hn (by norm_num : 1 < 10)
        omega
      rw [ih (n / 10) ((n % 10).digitChar :: l) hdiv, List.foldl_cons]
      have hrepr : n / 10 * 10 + digitVal ((n % 10).digitChar) = n := by
        rw [digitVal_digitChar _ hmod]
        have := Nat.div_add_mod n 10
        omega
      rw [hrepr]

theorem decVal_repr (n : Nat) : decVal (Nat.repr n).data = n := by
  show decVal (Nat.toDigits 10 n).asString.data = n
  have hdata : (Nat.toDigits 10 n).asString.data = Nat.toDigits 10 n := rfl
  rw [hdata]
  unfold Nat.toDigits decVal
  rw [decVal_toDigitsCore (n + 1) n [] (Nat.lt_succ_self n)]
  rfl

theorem aiId_inj : Function.Injective Manager.aiId := by
  intro a b hab
  have hd : (Manager.aiId a).data = (Manager.aiId b).data := by rw [hab]
  simp only [Manager.aiId, String.data_append] at hd
  have hr := List.append_cancel_left hd
  have h2 : decVal (Nat.repr a).data = decVal (Nat.repr b).data := by rw [hr]
  rwa [decVal_repr, decVal_repr] at h2

theorem exists_free_aiId (keys : List String) (i : Nat) :
    ∃ j, i ≤ j ∧ j < i + (keys.length + 1) ∧
      keys.contains (Manager.aiId j) = false := by
  by_contra hcon
  push_neg at hcon
  have hsub : ((List.range' i (keys.length + 1)).map Manager.aiId) ⊆ keys := by
    intro x hx
    rw [List.mem_map] at hx
    obtain ⟨j, hj, rfl⟩ := hx
    rw [List.mem_range'] at hj
    obtain ⟨k, hk, rfl⟩ := hj
    have hc := hcon (i + 1 * k) (by omega) (by omega)
    have hb : keys.contains (Manager.aiId (i + 1 * k)) = true := by
      cases hb : keys.contains (Manager.aiId (i + 1 * k))
      · exact absurd hb hc
      · rfl
    exact List.elem_iff.mp hb
  have hnd : ((List.range' i (keys.length + 1)).map Manager.aiId).Nodup :=
    (List.nodup_range' i (keys.length + 1)).map aiId_inj
  have hle := (List.subperm_of_subset hnd hsub).length_le
  simp only [List.length_map, List.length_range'] at hle
  omega

theorem findFreeAI_ge (keys : List String) (fuel : Nat) :
    ∀ i, i ≤ Manager.findFreeAI keys fuel i := by
  induction fuel with
  | zero => exact fun i => Nat.le_refl i
  | succ f ih =>
    intro i
    simp only [Manager.findFreeAI]
    split
    · exact Nat.le_trans (Nat.le_succ i) (ih (i + 1))
    · exact Nat.le_refl i

theorem findFreeAI_min (keys : List String) (fuel : Nat) :
    ∀ i j, i ≤ j → j < Manager.findFreeAI keys fuel i →
      keys.contains (Manager.aiId j) = true := by
  induction fuel with
  | zero =>
    intro i j hij hj
    simp only [Manager.findFreeAI] at hj
    omega
  | succ f ih =>
    intro i j hij hj
    simp only [Manager.findFreeAI] at hj
    by_cases hc : keys.contains (Manager.aiId i) = true
    · rw [if_pos hc] at hj
      rcases Nat.eq_or_lt_of_le hij with rfl | hlt
      · exact hc
      · exact ih (i + 1) j hlt hj
    · rw [if_neg hc] at hj
      omega

theorem findFreeAI_free (keys : List String) (fuel : Nat) :
    ∀ i, (∃ j, i ≤ j ∧ j < i + fuel ∧ keys.contains (Manager.aiId j) = false) →
      keys.contains (Manager.aiId (Manager.findFreeAI keys fuel i)) = false := by
  induction fuel with
  | zero =>
    intro i hex
    obtain ⟨j, hij, hj, _⟩ := hex
    omega
  | succ f ih =>
    intro i hex
    obtain ⟨j, hij, hj, hfree⟩ := hex
    simp only [Manager.findFreeAI]
    by_cases hc : keys.contains (Manager.aiId i) = true
    · rw [if_pos hc]
      apply ih (i + 1)
      refine ⟨j, ?_, by omega, hfree⟩
      rcases Nat.eq_or_lt_of_le hij with rfl | hlt
      · rw [hfree] at hc
        cases hc
      · exact hlt
    · rw [if_neg hc]
      cases hb : keys.contains (Manager.aiId i)
      · rfl
      · exact absurd hb hc

theorem nextAINum_spec (m : Manager) :
    0 < Manager.nextAINum m ∧
    (m.aiPanes.map Prod.fst).contains (Manager.aiId (Manager.nextAINum m)) = false ∧
    (∀ k, 0 < k → k < Manager.nextAINum m →
       (m.aiPanes.map Prod.fst).contains (Manager.aiId k) = true) := by
  refine ⟨findFreeAI_ge _ _ 1, ?_, ?_⟩
  · apply findFreeAI_free
    obtain ⟨j, hj1, hj2, hj3⟩ := exists_free_aiId (m.aiPanes.map Prod.fst) 1
    refine ⟨j, hj1, ?_, hj3⟩
    have hlen : (m.aiPanes.map Prod.fst).length = m.aiPanes.length :=
      List.length_map _ _
    omega
  · intro k hk hlt
    exact findFreeAI_min _ _ 1 k hk hlt

/-- C10, confirmed.  `AttachAIChat` allocates `ai-N` where `N` is the least
positive integer whose id is not currently bound in the AI map (so numbers
freed by closed chats are reused before a higher number is assigned), and
binds it to the freshly created pane — for every prior registry state. -/
theorem C10 (env : Env) (m : Manager)
    (hlive : env.allPanes.contains (m.next + 1) = true) :
    0 < Manager.nextAINum m ∧
    (m.aiPanes.map Prod.fst).contains (Manager.aiId (Manager.nextAINum m)) = false ∧
    (∀ k, 0 < k → k < Manager.nextAINum m →
       (m.aiPanes.map Prod.fst).contains (Manager.aiId k) = true) ∧
    lookupId (Manager.aiId (Manager.nextAINum m))
      (Manager.AttachAIChat env m).1.aiPanes = some (m.next + 1) := by
  obtain ⟨h1, h2, h3⟩ := nextAINum_spec m
  refine ⟨h1, h2, h3, ?_⟩
  have hhead : lookupId (Manager.aiId (Manager.nextAINum m))
      ((Manager.aiId (Manager.nextAINum m), m.next + 1) :: m.aiPanes)
        = some (m.next + 1) := by
    simp [lookupId]
  simp only [Manager.AttachAIChat]
  by_cases hp : env.mainPanes.length ≠ 2
  · simpa [hp] using hhead
  · have hc : lookupId (Manager.aiId (Manager.nextAINum m))
        (Manager.cleanupDeadPanes env
          { m with aiPanes := (Manager.aiId (Manager.nextAINum m), m.next + 1)
                     :: m.aiPanes
                   aiCounter := if Manager.nextAINum m > m.aiCounter then
                     Manager.nextAINum m else m.aiCounter
                   next := m.next + 2
                   bottomPane := m.next + 1
                   activeAIChat := Manager.aiId (Manager.nextAINum m)
                   activeResource := ""
                   stashedPanes := env.stashPanes }).aiPanes = some (m.next + 1) := by
      rw [Manager.cleanup_aiPanes]
      exact lookupId_filter_some hhead hlive
    simpa [hp] using hc

/-- C10 witness: on the fresh manager the first chat gets id "ai-1" bound to
the fresh pane. -/
theorem C10_witness :
    lookupId (Manager.aiId (Manager.nextAINum mEx))
      (Manager.AttachAIChat envEx2 mEx).1.aiPanes = some (mEx.next + 1) :=
  (C10 envEx2 mEx (by decide)).2.2.2

/-! ## Claim C2 -/

namespace WindowPool

theorem touch_entries_length (fullName : String) (p : WindowPool)
    (e : String × Nat)
    (hf : p.entries.find? (fun e' => e'.1 == fullName) = some e) :
    (touch fullName p).entries.length = p.entries.length := by
  simp only [touch, hf]
  have hmem := List.mem_of_find?_eq_some hf
  have hpred := List.find?_some hf
  have h1 := @List.length_eraseP_add_one _ (fun e' => e'.1 == fullName)
    p.entries e hmem hpred
  simp only [List.length_cons]
  omega

theorem touch_maxWindows (fullName : String) (p : WindowPool) :
    (touch fullName p).maxWindows = p.maxWindows := by
  simp only [touch]
  split <;> rfl

theorem evictLRU_ok_elim (env : PoolEnv) (p q : WindowPool)
    (h : evictLRU env p = .ok q) :
    ∃ idx e, p.entries.get? idx = some e ∧ env.closeOk = true ∧
      (match env.listWindows with
        | some ws => evictScan p.entries ws (p.entries.length - 1)
        | none => Except.ok (p.entries.length - 1)) = Except.ok idx ∧
      q = { p with entries := p.entries.eraseIdx idx,
                   closed := e.1 :: p.closed } := by
  simp only [evictLRU] at h
  split at h
  · cases h
  · split at h
    · cases h
    · rename_i idx heq
      split at h
      · cases h
      · rename_i e hg
        split at h
        · rename_i hcl
          injection h with h
          exact ⟨idx, e, hg, hcl, heq, h.symm⟩
        · cases h

theorem getOrCreate_bound (env : PoolEnv) (name : String) (p : WindowPool)
    (hmax : 0 < p.maxWindows) (hlen : p.entries.length ≤ p.maxWindows) :
    (GetOrCreate env name p).2.entries.length ≤ p.maxWindows ∧
    (GetOrCreate env name p).2.maxWindows = p.maxWindows := by
  simp only [GetOrCreate]
  cases hf : p.entries.find? (fun e => e.1 == p.namePref ++ name) with
  | some e =>
    have ht := touch_entries_length (p.namePref ++ name) p e hf
    have htm := touch_maxWindows (p.namePref ++ name) p
    cases hsw : env.switchOk
    · exact ⟨ht.trans_le hlen, htm⟩
    · exact ⟨ht.trans_le hlen, htm⟩
  | none =>
    by_cases hcap : 0 < p.maxWindows ∧ p.maxWindows ≤ p.entries.length
    · rw [if_pos hcap]
      cases hev : evictLRU env p with
      | error e => exact ⟨hlen, rfl⟩
      | ok p1 =>
        obtain ⟨idx, e, hg, _, _, rfl⟩ := evictLRU_ok_elim env p p1 hev
        have hidx : idx < p.entries.length := by
          rcases List.get?_eq_some.mp hg with ⟨hlt, _⟩
          exact hlt
        have hplen : (p.entries.eraseIdx idx).length = p.entries.length - 1 := by
          rw [List.length_eraseIdx, if_pos hidx]
        cases hst : env.setupOk
        · refine ⟨?_, rfl⟩
          show (p.entries.eraseIdx idx).length ≤ p.maxWindows
          omega
        · cases hsw : env.switchOk
          · refine ⟨?_, rfl⟩
            show ((p.namePref ++ name, p.nextId) :: p.entries.eraseIdx idx).length
              ≤ p.maxWindows
            simp only [List.length_cons]
            omega
          · refine ⟨?_, rfl⟩
            show ((p.namePref ++ name, p.nextId) :: p.entries.eraseIdx idx).length
              ≤ p.maxWindows
            simp only [List.length_cons]
            omega
    · rw [if_neg hcap]
      have hlt : p.entries.length < p.maxWindows := by
        rcases Nat.lt_or_ge p.entries.length p.maxWindows with h | h
        · exact h
        · exact absurd ⟨hmax, h⟩ hcap
      cases hst : env.setupOk
      · exact ⟨hlen, rfl⟩
      · cases hsw : env.switchOk
        · refine ⟨?_, rfl⟩
          show ((p.namePref ++ name, p.nextId) :: p.entries).length ≤ p.maxWindows
          simp only [List.length_cons]
          omega
        · refine ⟨?_, rfl⟩
          show ((p.namePref ++ name, p.nextId) :: p.entries).length ≤ p.maxWindows
          simp only [List.length_cons]
          omega

theorem runPool_bound (N : Nat) (ops : List (String × PoolEnv)) :
    ∀ p : WindowPool, 0 < N → p.maxWindows = N → p.entries.length ≤ N →
      (runPool p ops).entries.length ≤ N := by
  induction ops with
  | nil =>
    intro p _ _ hl
    exact hl
  | cons op ops ih =>
    intro p hN hm hl
    obtain ⟨name, env⟩ := op
    simp only [runPool]
    have hb := getOrCreate_bound env name p (by omega) (by omega)
    exact ih _ hN (by rw [hb.2]; exact hm) (by rw [hm] at hb; exact hb.1)

end WindowPool

namespace CappedWindowPool

theorem cappedGetOrCreate_bound (env : Env) (id : String) (s : Bool)
    (p : CappedWindowPool)
    (hmax : 0 < p.maxWindows) (hlen : p.windows.length ≤ p.maxWindows) :
    (GetOrCreate env id s p).2.windows.length ≤ p.maxWindows ∧
    (GetOrCreate env id s p).2.maxWindows = p.maxWindows := by
  simp only [GetOrCreate]
  cases hf : lookupId id p.windows with
  | some pane => exact ⟨hlen, rfl⟩
  | none =>
    by_cases hcap : 0 < p.maxWindows ∧ p.maxWindows ≤ p.windows.length
    · rw [if_pos hcap]
      exact ⟨hlen, rfl⟩
    · rw [if_neg hcap]
      have hlt : p.windows.length < p.maxWindows := by
        rcases Nat.lt_or_ge p.windows.length p.maxWindows with h | h
        · exact h
        · exact absurd ⟨hmax, h⟩ hcap
      cases hat : Manager.AttachResourceTerminal env (p.pref ++ id) p.manager with
      | mk m' err =>
        cases err with
        | some e => exact ⟨hlen, rfl⟩
        | none =>
          have hcount : ((id, m'.bottomPane) :: p.windows).length
              ≤ p.maxWindows := by
            simp only [List.length_cons]
            omega
          cases s
          · exact ⟨hcount, rfl⟩
          · exact ⟨hcount, rfl⟩

theorem runCapped_bound (N : Nat) (ops : List (String × Env × Bool)) :
    ∀ p : CappedWindowPool, 0 < N → p.maxWindows = N → p.windows.length ≤ N →
      (runCapped p ops).windows.length ≤ N := by
  induction ops with
  | nil =>
    intro p _ _ hl
    exact hl
  | cons op ops ih =>
    intro p hN hm hl
    obtain ⟨id, env, s⟩ := op
    simp only [runCapped]
    have hb := cappedGetOrCreate_bound env id s p (by omega) (by omega)
    exact ih _ hN (by rw [hb.2]; exact hm) (by rw [hm] at hb; exact hb.1)

end CappedWindowPool

/-- C2, confirmed.  For every `maxSize = N > 0` and every finite sequence of
`GetOrCreate` calls starting from the empty pool, the pool holds at most `N`
entries when each call returns, in both pool variants: the LRU variant
either evicts before creating or propagates the eviction failure without
creating; the capped variant refuses to create at the limit. -/
theorem C2 (N : Nat) (hN : 0 < N) :
    (∀ (pref : String) (ops : List (String × PoolEnv)),
       (WindowPool.runPool (WindowPool.new N pref) ops).entries.length ≤ N) ∧
    (∀ (mgr : Manager) (pref : String) (ops : List (String × Env × Bool)),
       (CappedWindowPool.runCapped
         { manager := mgr, maxWindows := N, pref := pref, windows := [] }
         ops).windows.length ≤ N) :=
  ⟨fun pref ops => WindowPool.runPool_bound N ops _ hN rfl (by simp [WindowPool.new]),
   fun mgr pref ops => CappedWindowPool.runCapped_bound N ops _ hN rfl (by simp)⟩

/-- C2 witness: a concrete over-capacity run in each variant. -/
theorem C2_witness :
    (WindowPool.runPool (WindowPool.new 1 "diag-")
      [("a", peOk), ("b", peOk), ("c", peOk)]).entries.length ≤ 1 ∧
    (CappedWindowPool.runCapped
      { manager := mEx, maxWindows := 1, pref := "r-", windows := [] }
      [("a", envEx2, true), ("b", envEx2, true)]).windows.length ≤ 1 :=
  ⟨(C2 1 (by decide)).1 "diag-" [("a", peOk), ("b", peOk), ("c", peOk)],
   (C2 1 (by decide)).2 mEx "r-" [("a", envEx2, true), ("b", envEx2, true)]⟩

/-! ## Claim C3 -/

namespace WindowPool

theorem evictScan_inactive (entries : List (String × Nat)) (ws : List WinInfo)
    (hno : ∀ w ∈ ws, w.active = false) :
    ∀ idx, evictScan entries ws idx = .ok idx := by
  induction ws with
  | nil =>
    intro idx
    rfl
  | cons w rest ih =>
    intro idx
    simp only [evictScan]
    cases hg : entries.get? idx with
    | none => rfl
    | some e =>
      have hcond : ¬ (w.name = e.1 ∧ w.active = true) := fun hc => by
        have hf := hno w (List.mem_cons_self _ _)
        rw [hf] at hc
        exact Bool.false_ne_true hc.2
      show (if w.name = e.1 ∧ w.active = true then
          (if 1 < entries.length then evictScan entries rest (idx - 1)
           else .error .onlyActive)
        else evictScan entries rest idx) = .ok idx
      rw [if_neg hcond]
      exact ih (fun w' hw' => hno w' (List.mem_cons_of_mem _ hw')) idx

theorem uniqueActive_names (ws : List WinInfo) (hu : uniqueActive ws)
    (a b : String) (ha : activeIn ws a) (hb : activeIn ws b) : a = b := by
  obtain ⟨w1, hw1, hn1, ha1⟩ := ha
  obtain ⟨w2, hw2, hn2, ha2⟩ := hb
  have h1 : w1 ∈ ws.filter (fun w => w.active) := List.mem_filter.mpr ⟨hw1, ha1⟩
  have h2 : w2 ∈ ws.filter (fun w => w.active) := List.mem_filter.mpr ⟨hw2, ha2⟩
  have heq : w1 = w2 := by
    rcases hl : ws.filter (fun w => w.active) with _ | ⟨x, rest⟩
    · rw [hl] at h1
      cases h1
    · have hrest : rest = [] := by
        have hu' := hu
        unfold uniqueActive at hu'
        rw [hl] at hu'
        simp only [List.length_cons] at hu'
        exact List.eq_nil_of_length_eq_zero (by omega)
      subst hrest
      rw [hl] at h1 h2
      simp only [List.mem_singleton] at h1 h2
      rw [h1, h2]
  rw [← hn1, ← hn2, heq]

theorem uniqueActive_rest (w : WinInfo) (rest : List WinInfo)
    (hu : uniqueActive (w :: rest)) : uniqueActive rest := by
  unfold uniqueActive at hu ⊢
  simp only [List.filter_cons] at hu
  split at hu
  · simp only [List.length_cons] at hu
    omega
  · exact hu

theorem rest_inactive_of_head_active (w : WinInfo) (rest : List WinInfo)
    (hu : uniqueActive (w :: rest)) (hw : w.active = true) :
    ∀ w' ∈ rest, w'.active = false := by
  intro w' hw'
  cases ha : w'.active
  · rfl
  · exfalso
    unfold uniqueActive at hu
    have hfil : (w :: rest).filter (fun x => x.active)
        = w :: rest.filter (fun x => x.active) := by
      simp [List.filter_cons, hw]
    rw [hfil] at hu
    have hmem : w' ∈ rest.filter (fun x => x.active) :=
      List.mem_filter.mpr ⟨hw', ha⟩
    have := List.length_pos_of_mem hmem
    simp only [List.length_cons] at hu
    omega

theorem evictScan_spec (entries : List (String × Nat)) (e : String × Nat)
    (hlast : entries.get? (entries.length - 1) = some e) :
    ∀ ws : List WinInfo, uniqueActive ws →
      evictScan entries ws (entries.length - 1)
        = if activeIn ws e.1 then
            (if 1 < entries.length then .ok (entries.length - 2)
             else .error .onlyActive)
          else .ok (entries.length - 1) := by
  intro ws
  induction ws with
  | nil =>
    intro _
    rw [if_neg (fun h => by obtain ⟨w, hw, _⟩ := h; cases hw)]
    rfl
  | cons w rest ih =>
    intro hu
    simp only [evictScan, hlast]
    by_cases hc : w.name = e.1 ∧ w.active = true
    · rw [if_pos hc]
      have hact : activeIn (w :: rest) e.1 :=
        ⟨w, List.mem_cons_self _ _, hc.1, hc.2⟩
      rw [if_pos hact]
      by_cases hl : 1 < entries.length
      · rw [if_pos hl, if_pos hl]
        exact evictScan_inactive entries rest
          (rest_inactive_of_head_active w rest hu hc.2) _
      · rw [if_neg hl, if_neg hl]
    · rw [if_neg hc]
      have hiff : activeIn (w :: rest) e.1 ↔ activeIn rest e.1 := by
        constructor
        · rintro ⟨w', hw', hn, ha⟩
          rcases List.mem_cons.mp hw' with rfl | hw''
          · exact absurd ⟨hn, ha⟩ hc
          · exact ⟨w', hw'', hn, ha⟩
        · rintro ⟨w', hw', hn, ha⟩
          exact ⟨w', List.mem_cons_of_mem _ hw', hn, ha⟩
      rw [ih (uniqueActive_rest w rest hu)]
      by_cases har : activeIn rest e.1
      · rw [if_pos har, if_pos (hiff.mpr har)]
      · rw [if_neg har, if_neg (fun h => har (hiff.mp h))]

theorem evictLRU_eq_of_scan (env : PoolEnv) (p : WindowPool)
    (ws : List WinInfo) (r : Except PErr Nat)
    (hws : env.listWindows = some ws)
    (h0 : ¬ p.entries.length = 0)
    (hscan : evictScan p.entries ws (p.entries.length - 1) = r) :
    evictLRU env p
      = match r with
        | .error er => .error er
        | .ok idx =>
          match p.entries.get? idx with
          | none => .error .noWindows
          | some e =>
            if env.closeOk = true then
              .ok { p with entries := p.entries.eraseIdx idx,
                           closed := e.1 :: p.closed }
            else .error .closeFailed := by
  cases r with
  | error er => simp only [evictLRU, hws, hscan, if_neg h0]
  | ok idx => simp only [evictLRU, hws, hscan, if_neg h0]

theorem evictLRU_ok_of_scan (env : PoolEnv) (p : WindowPool)
    (ws : List WinInfo) (idx : Nat) (e : String × Nat)
    (hws : env.listWindows = some ws) (h0 : ¬ p.entries.length = 0)
    (hscan : evictScan p.entries ws (p.entries.length - 1) = .ok idx)
    (hg : p.entries.get? idx = some e) (hcl : env.closeOk = true) :
    evictLRU env p = .ok { p with entries := p.entries.eraseIdx idx,
                                  closed := e.1 :: p.closed } := by
  rw [evictLRU_eq_of_scan env p ws _ hws h0 hscan]
  simp only [hg, hcl, if_true]

theorem keys_get_ne (entries : List (String × Nat)) (hnd : keysNodup entries)
    (i j : Nat) (hi : i < entries.length) (hj : j < entries.length)
    (hij : i ≠ j) :
    (entries.get ⟨i, hi⟩).1 ≠ (entries.get ⟨j, hj⟩).1 := by
  intro h
  have hi' : i < (entries.map Prod.fst).length := by
    rw [List.length_map]
    exact hi
  have hj' : j < (entries.map Prod.fst).length := by
    rw [List.length_map]
    exact hj
  have hg : (entries.map Prod.fst).get ⟨i, hi'⟩
      = (entries.map Prod.fst).get ⟨j, hj'⟩ := by
    simp only [List.get_map]
    exact h
  have := (List.Nodup.get_inj_iff hnd).mp hg
  exact hij (by simpa using congrArg Fin.val this)

end WindowPool

/-- C3, confirmed.  `evictLRU` never removes the pool entry whose window is
currently marked active (by the gateway's window listing, with its single
active window): any successful eviction leaves that entry bound; if the
active entry is the sole pool entry, eviction fails with the
cannot-evict-only-window error; and if the least-recently-used entry is the
active one while another entry exists, the next-least-recently-used entry is
evicted instead. -/
theorem C3 (env : PoolEnv) (p : WindowPool) (ws : List WinInfo)
    (nm : String) (w : Nat)
    (hnd : keysNodup p.entries)
    (hws : env.listWindows = some ws)
    (hu : uniqueActive ws)
    (hbound : lookupId nm p.entries = some w)
    (hact : activeIn ws nm) :
    (∀ q, WindowPool.evictLRU env p = .ok q →
       lookupId nm q.entries = some w) ∧
    (p.entries = [(nm, w)] →
       WindowPool.evictLRU env p = .error .onlyActive) ∧
    (∀ e, p.entries.get? (p.entries.length - 1) = some e → e.1 = nm →
       1 < p.entries.length → env.closeOk = true →
       ∃ q, WindowPool.evictLRU env p = .ok q ∧
         q.entries = p.entries.eraseIdx (p.entries.length - 2)) := by
  have hpos : 0 < p.entries.length :=
    List.length_pos_of_mem (mem_of_lookupId hbound)
  have h0 : ¬ p.entries.length = 0 := by omega
  have hlast : p.entries.get? (p.entries.length - 1)
      = some (p.entries.get ⟨p.entries.length - 1, by omega⟩) :=
    List.get?_eq_get _
  set e0 := p.entries.get ⟨p.entries.length - 1, by omega⟩ with he0
  refine ⟨?_, ?_, ?_⟩
  · intro q hq
    obtain ⟨idx, e, hg, hcl, hscaneq, rfl⟩ :=
      WindowPool.evictLRU_ok_elim env p q hq
    have hscan2 : WindowPool.evictScan p.entries ws (p.entries.length - 1)
        = Except.ok idx := by
      rw [hws] at hscaneq
      exact hscaneq
    have hspec := WindowPool.evictScan_spec p.entries e0 hlast ws hu
    by_cases hename : e0.1 = nm
    · rw [hename] at hspec
      rw [if_pos hact] at hspec
      by_cases hl : 1 < p.entries.length
      · rw [if_pos hl] at hspec
        rw [hspec] at hscan2
        injection hscan2 with hidx
        subst hidx
        have hg2 : p.entries.get? (p.entries.length - 2)
            = some (p.entries.get ⟨p.entries.length - 2, by omega⟩) :=
          List.get?_eq_get _
        have hne : (p.entries.get ⟨p.entries.length - 2, by omega⟩).1 ≠ nm := by
          rw [← hename, he0]
          exact WindowPool.keys_get_ne p.entries hnd _ _ (by omega) (by omega)
            (by omega)
        exact lookupId_eraseIdx hg2 hne hbound
      · rw [if_neg hl] at hspec
        rw [hspec] at hscan2
        cases hscan2
    · have hnact : ¬ activeIn ws e0.1 := by
        intro hact'
        exact hename (WindowPool.uniqueActive_names ws hu e0.1 nm hact' hact)
      rw [if_neg hnact] at hspec
      rw [hspec] at hscan2
      injection hscan2 with hidx
      subst hidx
      exact lookupId_eraseIdx hlast hename hbound
  · intro hsole
    have hlen1 : p.entries.length = 1 := by simp [hsole]
    have he0v : e0.1 = nm := by
      have h1 : p.entries.get? (p.entries.length - 1) = some (nm, w) := by
        rw [hsole]
        rfl
      rw [hlast] at h1
      injection h1 with h1
      rw [h1]
    have hspec := WindowPool.evictScan_spec p.entries e0 hlast ws hu
    rw [he0v, if_pos hact, if_neg (by omega : ¬ 1 < p.entries.length)] at hspec
    rw [WindowPool.evictLRU_eq_of_scan env p ws _ hws h0 hspec]
  · intro e hle hename hl hcl
    have he0e : e0 = e := by
      rw [hlast] at hle
      injection hle
    have hspec := WindowPool.evictScan_spec p.entries e0 hlast ws hu
    rw [he0e, hename, if_pos hact, if_pos hl] at hspec
    have hg2 : p.entries.get? (p.entries.length - 2)
        = some (p.entries.get ⟨p.entries.length - 2, by omega⟩) :=
      List.get?_eq_get _
    exact ⟨_, WindowPool.evictLRU_ok_of_scan env p ws _ _ hws h0 hspec hg2 hcl,
      rfl⟩

/-- C3 witness: with "diag-a" the sole (and active) pool entry, eviction
fails and removes nothing. -/
theorem C3_witness :
    WindowPool.evictLRU peActiveA pSoleA = .error .onlyActive :=
  (C3 peActiveA pSoleA [{ name := "diag-a", active := true }] "diag-a" 0
    (by decide) rfl (by decide) rfl
    ⟨{ name := "diag-a", active := true }, by decide⟩).2.1 rfl

/-! ## Claim C9 -/

/-- C9, counterexample.  In the capped pool variant (the second `WindowPool`
in the source), when window creation succeeds and the caller-supplied setup
function then fails, the error is propagated but the pool keeps the entry
for that name (and nothing destroys the created pane): starting from the
empty pool, `GetOrCreate("a")` with a failing setup returns an error *and*
leaves `"a"` bound — contradicting "the pool retains no entry for that
name; its membership and size are the same as before the call". -/
theorem C9_counterexample :
    (CappedWindowPool.GetOrCreate envEx2 "a" false cpEx).1
      = .error .setupFailed ∧
    lookupId "a" cpEx.windows = none ∧
    lookupId "a" (CappedWindowPool.GetOrCreate envEx2 "a" false cpEx).2.windows
      = some 5 :=
  ⟨rfl, rfl, rfl⟩

/-- C9, amended.  In the LRU pool variant, when the name is unbound and the
setup function fails, the call returns an error, the pool holds no entry for
that name, and no entry is added (the resulting entry list is a sublist of
the original); off capacity the membership is exactly unchanged, the error
is the setup error and the just-created window's name is passed to
`CloseWindow` (the `closed` ghost log); at capacity, a successful eviction
persists (the pool is the evicted pool, one entry smaller) — membership is
*not* restored.  The capped variant instead keeps the entry and destroys
nothing (see the counterexample). -/
theorem C9_amended (env : PoolEnv) (p : WindowPool) (name : String)
    (hset : env.setupOk = false)
    (habs : p.entries.find? (fun e => e.1 == p.namePref ++ name) = none) :
    (∃ er, (WindowPool.GetOrCreate env name p).1 = .error er) ∧
    (WindowPool.GetOrCreate env name p).2.entries.find?
      (fun e => e.1 == p.namePref ++ name) = none ∧
    (WindowPool.GetOrCreate env name p).2.entries.Sublist p.entries ∧
    (¬ (0 < p.maxWindows ∧ p.maxWindows ≤ p.entries.length) →
       (WindowPool.GetOrCreate env name p).2.entries = p.entries ∧
       (WindowPool.GetOrCreate env name p).1 = .error .setupFailed ∧
       (WindowPool.GetOrCreate env name p).2.closed
         = (p.namePref ++ name) :: p.closed) ∧
    ((0 < p.maxWindows ∧ p.maxWindows ≤ p.entries.length) →
       ∀ p1, WindowPool.evictLRU env p = .ok p1 →
         (WindowPool.GetOrCreate env name p).1 = .error .setupFailed ∧
         (WindowPool.GetOrCreate env name p).2.closed
           = (p.namePref ++ name) :: p1.closed ∧
         (WindowPool.GetOrCreate env name p).2.entries = p1.entries) := by
  simp only [WindowPool.GetOrCreate, habs]
  by_cases hcap : 0 < p.maxWindows ∧ p.maxWindows ≤ p.entries.length
  · rw [if_pos hcap]
    cases hev : WindowPool.evictLRU env p with
    | error er =>
      refine ⟨⟨er, rfl⟩, habs, List.Sublist.refl _,
        fun hcon => absurd hcap hcon, ?_⟩
      intro _ p1 h1
      cases h1
    | ok p1 =>
      obtain ⟨idx, e, hg, _, _, rfl⟩ := WindowPool.evictLRU_ok_elim env p p1 hev
      simp only [if_pos hset]
      refine ⟨⟨.setupFailed, by trivial⟩, ?_, ?_,
        fun hcon => absurd hcap hcon, ?_⟩
      · show (p.entries.eraseIdx idx).find?
          (fun e => e.1 == p.namePref ++ name) = none
        rw [List.find?_eq_none] at habs ⊢
        intro x hx
        exact habs x ((List.eraseIdx_sublist _ _).subset hx)
      · exact List.eraseIdx_sublist _ _
      · intro _ p1' h1
        injection h1 with h1
        subst h1
        exact ⟨by trivial, by trivial, by trivial⟩
  · rw [if_neg hcap]
    simp only [if_pos hset]
    exact ⟨⟨.setupFailed, by trivial⟩, habs, List.Sublist.refl _,
      fun _ => ⟨by trivial, by trivial, by trivial⟩, fun hcon => absurd hcon hcap⟩

/-- C9 witness: a failing setup on the empty LRU pool propagates the error
with no entry retained. -/
theorem C9_witness :
    (WindowPool.GetOrCreate peSetupFail "a" (WindowPool.new 2 "diag-")).1
      = .error .setupFailed :=
  ((C9_amended peSetupFail (WindowPool.new 2 "diag-") "a" rfl rfl).2.2.2.1
    (by decide)).2.1

end Muxctl
